import Mathlib

/-!
# Verification of `ConvertImgToMP4` (`src/__main__.py`)

A shallow embedding of the script's three functions — `get_image_files`,
`resize_image` and `create_video_from_images` — together with proofs of the
specification claims about them.

Python strings are modelled as `String`, Python `float` arithmetic as exact
rational arithmetic (`ℚ`), `int()` truncation of the nonnegative quantities
involved as `Nat.floor`, and the filesystem as a lookup from a root path to a
directory tree.  The OpenCV calls that the script makes are modelled by their
documented observable behaviour: `cv2.imread` is a `Decoder` that may fail
(`None`), `cv2.resize` produces an image of exactly the requested dimensions
with pixel content given by an interpolation parameter, `cv2.copyMakeBorder`
with `BORDER_CONSTANT` and no `value` argument adds a constant border of
pixel value 0, and `cv2.VideoWriter` is an event sink (open / write frame /
release).
-/

namespace ConvertImgToMP4

/-! ### Python string and path primitives -/

/-- Python `str.lower`, character by character. -/
def str_lower (s : String) : String :=
  String.mk (s.toList.map Char.toLower)

/-- Python `str.endswith(suffix)`: the last `suffix.length` characters equal
`suffix` (false when the string is shorter than the suffix). -/
def str_endswith (s suffix : String) : Bool :=
  suffix.toList == s.toList.drop (s.toList.length - suffix.toList.length)

/-- Python `str.startswith(p)`. -/
def str_startswith (s p : String) : Bool :=
  p.toList == s.toList.take p.toList.length

/-- `posixpath.join` restricted to two components, as used by
`os.path.join(root, file)` in the script. -/
def pathJoin (a b : String) : String :=
  if str_startswith b "/" then b
  else if a = "" || str_endswith a "/" then a ++ b
  else a ++ "/" ++ b

/-- `posixpath.dirname`: everything up to the last `/`, with trailing slashes
stripped unless the result consists only of slashes. -/
def dirname (p : String) : String :=
  let l := p.toList
  let head := l.take (l.length - (l.reverse.takeWhile (fun c => c ≠ '/')).length)
  if head ≠ [] ∧ head.any (fun c => c ≠ '/') then
    String.mk ((head.reverse.dropWhile (fun c => c = '/')).reverse)
  else
    String.mk head

/-! ### Images and `resize_image` (src/__main__.py lines 84-103) -/

/-- A decoded raster image (`numpy.ndarray` from `cv2.imread`): a width, a
height, and a pixel value at each coordinate (channel-collapsed; `0` is
black). `image.shape[1]` is `width`, `image.shape[0]` is `height`. -/
structure Img where
  width : ℕ
  height : ℕ
  pixel : ℕ → ℕ → ℕ

/-- The pixel content produced by `cv2.resize`'s interpolation is not part of
the script's source; it is a parameter of the model: given the source image,
the requested dimensions and a coordinate, it yields the pixel value. -/
abbrev Interp := Img → ℕ → ℕ → ℕ → ℕ → ℕ

/-- Model of `cv2.resize(image, (w, h))`: the output has exactly the requested
dimensions; pixel content comes from the interpolation parameter. -/
def cvResize (interp : Interp) (image : Img) (w h : ℕ) : Img :=
  { width := w, height := h, pixel := fun x y => interp image w h x y }

/-- Model of `cv2.copyMakeBorder(image, top, bottom, left, right,
cv2.BORDER_CONSTANT)`: the interior is the original image, the added border is
the constant default value 0 (black). -/
def copyMakeBorder (image : Img) (top bottom left right : ℕ) : Img :=
  { width := left + image.width + right
    height := top + image.height + bottom
    pixel := fun x y =>
      if left ≤ x ∧ x < left + image.width ∧ top ≤ y ∧ y < top + image.height then
        image.pixel (x - left) (y - top)
      else 0 }

/-- Line 96: `aspect_ratio = min(width / image.shape[1], height / image.shape[0])`,
with `sw = image.shape[1]`, `sh = image.shape[0]`, `tw`/`th` the target box. -/
def aspect_ratio (sw sh tw th : ℕ) : ℚ :=
  min ((tw : ℚ) / (sw : ℚ)) ((th : ℚ) / (sh : ℚ))

/-- Line 97: `new_width = int(image.shape[1] * aspect_ratio)` (the value is
nonnegative, so Python's truncation toward zero is the floor). -/
def scaledW (sw sh tw th : ℕ) : ℕ :=
  ⌊(sw : ℚ) * aspect_ratio sw sh tw th⌋₊

/-- Line 98: `new_height = int(image.shape[0] * aspect_ratio)`. -/
def scaledH (sw sh tw th : ℕ) : ℕ :=
  ⌊(sh : ℚ) * aspect_ratio sw sh tw th⌋₊

/-- Lines 84-103: `resize_image(image, width, height)`.  Scales by the minimum
ratio (truncating to integers), then pads with
`padding_width = int((width - new_width) / 2)` and
`padding_height = int((height - new_height) / 2)` on both sides of each axis
(the differences are nonnegative, so Nat subtraction/division is Python's
truncating division). -/
def resize_image (interp : Interp) (image : Img) (width height : ℕ) : Img :=
  let new_width := scaledW image.width image.height width height
  let new_height := scaledH image.width image.height width height
  let resized_image := cvResize interp image new_width new_height
  let padding_width := (width - new_width) / 2
  let padding_height := (height - new_height) / 2
  copyMakeBorder resized_image padding_height padding_height padding_width padding_width

/-! ### Filesystem model and `get_image_files` (lines 67-82) -/

mutual
/-- A directory: its plain files' names and its named subdirectories. -/
inductive FSTree where
  | node (files : List String) (subdirs : FSForest)
/-- A list of named subdirectories. -/
inductive FSForest where
  | nil
  | cons (name : String) (tree : FSTree) (rest : FSForest)
end

/-- The filesystem: a root path either names a directory tree or does not
exist / is unreadable (`none`). -/
abbrev FileSystem := String → Option FSTree

mutual
/-- Top-down traversal of a tree: `os.walk` yields `(dirpath, filenames)` for
the directory itself, then for each subdirectory in order. -/
def walkTree (root : String) : FSTree → List (String × List String)
  | .node files subdirs => (root, files) :: walkForest root subdirs
termination_by structural t => t

/-- Traversal of a list of subdirectories in order. -/
def walkForest (root : String) : FSForest → List (String × List String)
  | .nil => []
  | .cons name t rest => walkTree (pathJoin root name) t ++ walkForest root rest
termination_by structural f => f
end

/-- Model of `os.walk(path)`: top-down listing; a non-existent (or unreadable)
root yields nothing, because `os.walk`'s default `onerror=None` swallows the
`scandir` error. -/
def os_walk (fs : FileSystem) (path : String) : List (String × List String) :=
  match fs path with
  | none => []
  | some t => walkTree path t

/-- Line 80: `file.lower().endswith(('.png', '.jpg', '.jpeg', '.gif'))`
(a tuple argument to `endswith` means "ends with any of them"). -/
def isImageFile (file : String) : Bool :=
  let l := str_lower file
  str_endswith l ".png" || str_endswith l ".jpg" ||
    str_endswith l ".jpeg" || str_endswith l ".gif"

/-- Lines 67-82: `get_image_files(path)` — for every `(root, _, files)` of
`os.walk(path)`, every `file` in `files` passing the extension test,
appending `os.path.join(root, file)`. -/
def get_image_files (fs : FileSystem) (path : String) : List String :=
  (os_walk fs path).flatMap fun rf =>
    (rf.2.filter fun file => isImageFile file).map fun file => pathJoin rf.1 file

/-! ### The pipeline `create_video_from_images` (lines 4-65) -/

/-- Line 36. -/
def output_width : ℕ := 2560
/-- Line 37. -/
def output_height : ℕ := 1440
/-- Line 38. -/
def output_fps : ℕ := 60

/-- Observable actions on the video sink. -/
inductive Event where
  | openWriter (output_path : String) (fourcc : String) (fps : ℕ) (size : ℕ × ℕ)
  | writeFrame (frame : Img)
  | release

/-- The Python exceptions the run can terminate with: `IndexError` from
`image_files[0]` on an empty list (line 32), or the attribute error raised
when `cv2.imread` returned `None` for a file and the result is used
(line 33 / line 96). -/
inductive RunError where
  | indexError
  | decodeError (file : String)
deriving DecidableEq

/-- Outcome of a run: the sink events that happened, in order, and the
exception that ended the run (`none` on normal completion). -/
structure RunResult where
  events : List Event
  error : Option RunError

/-- Model of `cv2.imread`: decodes a path into an image, or `None`. -/
abbrev Decoder := String → Option Img

def Event.isWrite : Event → Bool
  | .writeFrame _ => true
  | _ => false

def Event.isRelease : Event → Bool
  | .release => true
  | _ => false

/-- Lines 48-58: the per-file loop.  Each file is decoded; a failed decode
raises when the `None` result reaches `resize_image` (no skip-and-continue),
otherwise the resized frame is written and the loop continues. -/
def writeFrames (interp : Interp) (decode : Decoder) :
    List String → List Event × Option RunError
  | [] => ([], none)
  | image_file :: rest =>
    match decode image_file with
    | none => ([], some (RunError.decodeError image_file))
    | some image =>
      let resized_image := resize_image interp image output_width output_height
      let (es, err) := writeFrames interp decode rest
      (Event.writeFrame resized_image :: es, err)

/-- Lines 17-26: `file_name` defaults to `"none"`, `destination_folder`
defaults to `os.path.dirname(path)`, and the output path is
`os.path.join(destination_folder, f"{file_name}.mp4")`. -/
def output_path_of (file_name : Option String) (path : String)
    (destination_folder : Option String) : String :=
  pathJoin (destination_folder.getD (dirname path)) (file_name.getD "none" ++ ".mp4")

/-- Lines 4-65: `create_video_from_images(file_name, path, destination_folder)`.
Discovery, the unconditional `image_files[0]` read (line 32, `IndexError` on an
empty list, and an attribute error if the first file does not decode — both
before the writer is opened), then the writer is opened (line 42), the loop
writes one frame per file (lines 48-58), and on normal completion only, the
writer is released (line 61). -/
def create_video_from_images (interp : Interp) (decode : Decoder) (fs : FileSystem)
    (file_name : Option String) (path : String) (destination_folder : Option String) :
    RunResult :=
  let output_path := output_path_of file_name path destination_folder
  let image_files := get_image_files fs path
  match image_files with
  | [] => ⟨[], some RunError.indexError⟩
  | first :: _ =>
    match decode first with
    | none => ⟨[], some (RunError.decodeError first)⟩
    | some _ =>
      let (es, err) := writeFrames interp decode image_files
      ⟨Event.openWriter output_path "mp4v" output_fps (output_width, output_height) :: es ++
        (match err with | none => [Event.release] | some _ => []), err⟩

/-! ### Concrete artifacts used by witnesses and counterexamples -/

/-- A trivial interpolation (all pixels 0). -/
def interp0 : Interp := fun _ _ _ _ _ => 0

/-- An all-black 2560×1439 source image. -/
def img2560x1439 : Img := ⟨2560, 1439, fun _ _ => 0⟩

/-- An all-black 800×600 source image. -/
def img800x600 : Img := ⟨800, 600, fun _ _ => 0⟩

/-- A decoder that decodes everything to `img800x600`. -/
def decodeOk : Decoder := fun _ => some img800x600

/-- A decoder that decodes only `/pics/a.png` and fails on everything else. -/
def decodeFirstOnly : Decoder := fun f =>
  if f = "/pics/a.png" then some img800x600 else none

/-- A filesystem with a single root `/docs` holding one non-image file. -/
def fsDocs : FileSystem := fun p =>
  if p = "/docs" then some (FSTree.node ["readme.txt"] FSForest.nil) else none

/-- A filesystem with a single root `/tmp/in` holding one image file. -/
def fsDemo : FileSystem := fun p =>
  if p = "/tmp/in" then some (FSTree.node ["a.png"] FSForest.nil) else none

/-- A filesystem where no path exists. -/
def fsMissing : FileSystem := fun _ => none

/-- A filesystem with root `/pics`: `a.png`, `b.TXT` and a subdirectory
`sub` holding `c.JPG`. -/
def fsPics : FileSystem := fun p =>
  if p = "/pics" then
    some (FSTree.node ["a.png", "b.TXT"]
      (FSForest.cons "sub" (FSTree.node ["c.JPG"] FSForest.nil) FSForest.nil))
  else none

/-! ### Arithmetic facts about the resize step -/

lemma aspect_nonneg (sw sh tw th : ℕ) : 0 ≤ aspect_ratio sw sh tw th :=
  le_min (by positivity) (by positivity)

lemma scaledW_le (sw sh tw th : ℕ) (hsw : 1 ≤ sw) : scaledW sw sh tw th ≤ tw := by
  have hsw' : (0 : ℚ) < (sw : ℚ) := by exact_mod_cast hsw
  have h1 : (sw : ℚ) * aspect_ratio sw sh tw th ≤ (sw : ℚ) * ((tw : ℚ) / (sw : ℚ)) :=
    mul_le_mul_of_nonneg_left (min_le_left _ _) hsw'.le
  have h2 : (sw : ℚ) * ((tw : ℚ) / (sw : ℚ)) = (tw : ℚ) :=
    mul_div_cancel₀ _ hsw'.ne'
  calc scaledW sw sh tw th = ⌊(sw : ℚ) * aspect_ratio sw sh tw th⌋₊ := rfl
    _ ≤ ⌊(tw : ℚ)⌋₊ := Nat.floor_le_floor (h2 ▸ h1)
    _ = tw := Nat.floor_natCast tw

lemma scaledH_le (sw sh tw th : ℕ) (hsh : 1 ≤ sh) : scaledH sw sh tw th ≤ th := by
  have hsh' : (0 : ℚ) < (sh : ℚ) := by exact_mod_cast hsh
  have h1 : (sh : ℚ) * aspect_ratio sw sh tw th ≤ (sh : ℚ) * ((th : ℚ) / (sh : ℚ)) :=
    mul_le_mul_of_nonneg_left (min_le_right _ _) hsh'.le
  have h2 : (sh : ℚ) * ((th : ℚ) / (sh : ℚ)) = (th : ℚ) :=
    mul_div_cancel₀ _ hsh'.ne'
  calc scaledH sw sh tw th = ⌊(sh : ℚ) * aspect_ratio sw sh tw th⌋₊ := rfl
    _ ≤ ⌊(th : ℚ)⌋₊ := Nat.floor_le_floor (h2 ▸ h1)
    _ = th := Nat.floor_natCast th

/-- When the width ratio is the smaller one, the scale is `tw/sw`. -/
lemma aspect_eq_left (sw sh tw th : ℕ) (hsw : 1 ≤ sw) (hsh : 1 ≤ sh)
    (h : tw * sh ≤ th * sw) : aspect_ratio sw sh tw th = (tw : ℚ) / (sw : ℚ) := by
  have hsw' : (0 : ℚ) < (sw : ℚ) := by exact_mod_cast hsw
  have hsh' : (0 : ℚ) < (sh : ℚ) := by exact_mod_cast hsh
  refine min_eq_left ?_
  rw [div_le_div_iff₀ hsw' hsh']
  exact_mod_cast h

/-- Exact-rational evaluation of the scaled dimensions when the width ratio is
the smaller one: the width scales exactly to `tw`. -/
lemma scaled_eq_left (sw sh tw th : ℕ) (hsw : 1 ≤ sw) (hsh : 1 ≤ sh)
    (h : tw * sh ≤ th * sw) :
    scaledW sw sh tw th = tw ∧ scaledH sw sh tw th = sh * tw / sw := by
  have hsw' : (0 : ℚ) < (sw : ℚ) := by exact_mod_cast hsw
  constructor
  · unfold scaledW
    rw [aspect_eq_left sw sh tw th hsw hsh h, mul_div_cancel₀ _ hsw'.ne',
      Nat.floor_natCast]
  · unfold scaledH
    rw [aspect_eq_left sw sh tw th hsw hsh h]
    have hcast : (sh : ℚ) * ((tw : ℚ) / (sw : ℚ)) = ((sh * tw : ℕ) : ℚ) / ((sw : ℕ) : ℚ) := by
      push_cast
      ring
    rw [hcast, Nat.floor_div_nat, Nat.floor_natCast]

/-- When the height ratio is the smaller one, the scale is `th/sh` and the
height scales exactly to `th`. -/
lemma scaled_eq_right (sw sh tw th : ℕ) (hsw : 1 ≤ sw) (hsh : 1 ≤ sh)
    (h : th * sw ≤ tw * sh) :
    scaledH sw sh tw th = th ∧ scaledW sw sh tw th = sw * th / sh := by
  have hsw' : (0 : ℚ) < (sw : ℚ) := by exact_mod_cast hsw
  have hsh' : (0 : ℚ) < (sh : ℚ) := by exact_mod_cast hsh
  have har : aspect_ratio sw sh tw th = (th : ℚ) / (sh : ℚ) := by
    refine min_eq_right ?_
    rw [div_le_div_iff₀ hsh' hsw']
    exact_mod_cast h
  constructor
  · unfold scaledH
    rw [har, mul_div_cancel₀ _ hsh'.ne', Nat.floor_natCast]
  · unfold scaledW
    rw [har]
    have hcast : (sw : ℚ) * ((th : ℚ) / (sh : ℚ)) = ((sw * th : ℕ) : ℚ) / ((sh : ℕ) : ℚ) := by
      push_cast
      ring
    rw [hcast, Nat.floor_div_nat, Nat.floor_natCast]

/-- Line 100: `padding_width = int((width - new_width) / 2)` (nonnegative, so
Nat subtraction and truncating division coincide with Python's). -/
def padding_width (sw sh tw th : ℕ) : ℕ := (tw - scaledW sw sh tw th) / 2

/-- Line 101: `padding_height = int((height - new_height) / 2)`. -/
def padding_height (sw sh tw th : ℕ) : ℕ := (th - scaledH sw sh tw th) / 2

/-- The width of the padded result, literally as built by `copyMakeBorder`. -/
lemma resize_width (interp : Interp) (image : Img) (w h : ℕ) :
    (resize_image interp image w h).width =
      padding_width image.width image.height w h +
        scaledW image.width image.height w h +
        padding_width image.width image.height w h := rfl

/-- The height of the padded result, literally as built by `copyMakeBorder`. -/
lemma resize_height (interp : Interp) (image : Img) (w h : ℕ) :
    (resize_image interp image w h).height =
      padding_height image.width image.height w h +
        scaledH image.width image.height w h +
        padding_height image.width image.height w h := rfl

/-! ### Claim C2 -/

/-- C2: for every decoded image of width `sw ≥ 1`, height `sh ≥ 1` and target
box `(tw, th)`, the transform computes the scale
`s = min(tw/sw, th/sh)`, the scaled dimensions `(⌊sw·s⌋, ⌊sh·s⌋)` by
truncation (characterised here by the floor inequalities), pads
`⌊(target − scaled)/2⌋` on each side of each axis, and the resulting
dimension equals the target exactly on an axis whose gap `target − scaled`
is even, and falls one pixel short on an axis whose gap is odd. -/
theorem resize_pad_formula (interp : Interp) (image : Img) (tw th nw nh : ℕ)
    (hw : 1 ≤ image.width) (hh : 1 ≤ image.height)
    (hnw : nw = scaledW image.width image.height tw th)
    (hnh : nh = scaledH image.width image.height tw th) :
    ((nw : ℚ) ≤ (image.width : ℚ) * aspect_ratio image.width image.height tw th ∧
      (image.width : ℚ) * aspect_ratio image.width image.height tw th < nw + 1) ∧
    ((nh : ℚ) ≤ (image.height : ℚ) * aspect_ratio image.width image.height tw th ∧
      (image.height : ℚ) * aspect_ratio image.width image.height tw th < nh + 1) ∧
    (resize_image interp image tw th).width = nw + 2 * ((tw - nw) / 2) ∧
    (resize_image interp image tw th).height = nh + 2 * ((th - nh) / 2) ∧
    (Even (tw - nw) → (resize_image interp image tw th).width = tw) ∧
    (¬ Even (tw - nw) → (resize_image interp image tw th).width = tw - 1) ∧
    (Even (th - nh) → (resize_image interp image tw th).height = th) ∧
    (¬ Even (th - nh) → (resize_image interp image tw th).height = th - 1) := by
  subst hnw hnh
  have h0w : (0 : ℚ) ≤ (image.width : ℚ) * aspect_ratio image.width image.height tw th :=
    mul_nonneg (by positivity) (aspect_nonneg _ _ _ _)
  have h0h : (0 : ℚ) ≤ (image.height : ℚ) * aspect_ratio image.width image.height tw th :=
    mul_nonneg (by positivity) (aspect_nonneg _ _ _ _)
  have hwle := scaledW_le image.width image.height tw th hw
  have hhle := scaledH_le image.width image.height tw th hh
  have hrw := resize_width interp image tw th
  have hrh := resize_height interp image tw th
  rw [hrw, hrh]
  unfold padding_width padding_height
  refine ⟨⟨Nat.floor_le h0w, Nat.lt_floor_add_one _⟩,
    ⟨Nat.floor_le h0h, Nat.lt_floor_add_one _⟩, by omega, by omega, ?_, ?_, ?_, ?_⟩ <;>
    · rw [Nat.even_iff]
      omega

/-- Witness for C2 at a concrete 800×600 image and the 2560×1440 box: the
scaled dimensions are 1920×1440, both gaps are even, and the padded result is
exactly the box. -/
theorem resize_pad_formula_witness :
    (1 ≤ img800x600.width ∧ 1 ≤ img800x600.height ∧
      (1920 : ℕ) = scaledW img800x600.width img800x600.height 2560 1440 ∧
      (1440 : ℕ) = scaledH img800x600.width img800x600.height 2560 1440) ∧
    (((1920 : ℕ) : ℚ) ≤
        (img800x600.width : ℚ) * aspect_ratio img800x600.width img800x600.height 2560 1440 ∧
      (img800x600.width : ℚ) * aspect_ratio img800x600.width img800x600.height 2560 1440 <
        (1920 : ℕ) + 1) ∧
    (((1440 : ℕ) : ℚ) ≤
        (img800x600.height : ℚ) * aspect_ratio img800x600.width img800x600.height 2560 1440 ∧
      (img800x600.height : ℚ) * aspect_ratio img800x600.width img800x600.height 2560 1440 <
        (1440 : ℕ) + 1) ∧
    (resize_image interp0 img800x600 2560 1440).width = 1920 + 2 * ((2560 - 1920) / 2) ∧
    (resize_image interp0 img800x600 2560 1440).height = 1440 + 2 * ((1440 - 1440) / 2) ∧
    (Even (2560 - 1920) → (resize_image interp0 img800x600 2560 1440).width = 2560) ∧
    (¬ Even (2560 - 1920) → (resize_image interp0 img800x600 2560 1440).width = 2560 - 1) ∧
    (Even (1440 - 1440) → (resize_image interp0 img800x600 2560 1440).height = 1440) ∧
    (¬ Even (1440 - 1440) → (resize_image interp0 img800x600 2560 1440).height = 1440 - 1) := by
  have h := scaled_eq_right 800 600 2560 1440 (by decide) (by decide) (by decide)
  have hW : (1920 : ℕ) = scaledW img800x600.width img800x600.height 2560 1440 := by
    rw [show img800x600.width = 800 from rfl, show img800x600.height = 600 from rfl, h.2]
  have hH : (1440 : ℕ) = scaledH img800x600.width img800x600.height 2560 1440 := by
    rw [show img800x600.width = 800 from rfl, show img800x600.height = 600 from rfl, h.1]
  exact ⟨⟨by decide, by decide, hW, hH⟩,
    resize_pad_formula interp0 img800x600 2560 1440 1920 1440 (by decide) (by decide) hW hH⟩

/-! ### Claim C7 -/

/-- C7: both scaled dimensions are truncations of the source dimension times
the same uniform scale factor — so each is within 1 of the exact product —
and each scaled dimension is at most the corresponding target dimension (the
scaled image fits within the output box). -/
theorem scaled_region_uniform_and_fits (image : Img) (tw th : ℕ)
    (hw : 1 ≤ image.width) (hh : 1 ≤ image.height) :
    scaledW image.width image.height tw th =
      ⌊(image.width : ℚ) * aspect_ratio image.width image.height tw th⌋₊ ∧
    scaledH image.width image.height tw th =
      ⌊(image.height : ℚ) * aspect_ratio image.width image.height tw th⌋₊ ∧
    (image.width : ℚ) * aspect_ratio image.width image.height tw th - 1 <
      scaledW image.width image.height tw th ∧
    (scaledW image.width image.height tw th : ℚ) ≤
      (image.width : ℚ) * aspect_ratio image.width image.height tw th ∧
    (image.height : ℚ) * aspect_ratio image.width image.height tw th - 1 <
      scaledH image.width image.height tw th ∧
    (scaledH image.width image.height tw th : ℚ) ≤
      (image.height : ℚ) * aspect_ratio image.width image.height tw th ∧
    scaledW image.width image.height tw th ≤ tw ∧
    scaledH image.width image.height tw th ≤ th := by
  have h0w : (0 : ℚ) ≤ (image.width : ℚ) * aspect_ratio image.width image.height tw th :=
    mul_nonneg (by positivity) (aspect_nonneg _ _ _ _)
  have h0h : (0 : ℚ) ≤ (image.height : ℚ) * aspect_ratio image.width image.height tw th :=
    mul_nonneg (by positivity) (aspect_nonneg _ _ _ _)
  exact ⟨rfl, rfl, Nat.sub_one_lt_floor _, Nat.floor_le h0w,
    Nat.sub_one_lt_floor _, Nat.floor_le h0h,
    scaledW_le image.width image.height tw th hw,
    scaledH_le image.width image.height tw th hh⟩

/-- Witness for C7 at the 800×600 image and the 2560×1440 box. -/
theorem scaled_region_uniform_and_fits_witness :
    (1 ≤ img800x600.width ∧ 1 ≤ img800x600.height) ∧
    (scaledW img800x600.width img800x600.height 2560 1440 =
        ⌊(img800x600.width : ℚ) * aspect_ratio img800x600.width img800x600.height 2560 1440⌋₊ ∧
      scaledH img800x600.width img800x600.height 2560 1440 =
        ⌊(img800x600.height : ℚ) * aspect_ratio img800x600.width img800x600.height 2560 1440⌋₊ ∧
      (img800x600.width : ℚ) * aspect_ratio img800x600.width img800x600.height 2560 1440 - 1 <
        scaledW img800x600.width img800x600.height 2560 1440 ∧
      (scaledW img800x600.width img800x600.height 2560 1440 : ℚ) ≤
        (img800x600.width : ℚ) * aspect_ratio img800x600.width img800x600.height 2560 1440 ∧
      (img800x600.height : ℚ) * aspect_ratio img800x600.width img800x600.height 2560 1440 - 1 <
        scaledH img800x600.width img800x600.height 2560 1440 ∧
      (scaledH img800x600.width img800x600.height 2560 1440 : ℚ) ≤
        (img800x600.height : ℚ) * aspect_ratio img800x600.width img800x600.height 2560 1440 ∧
      scaledW img800x600.width img800x600.height 2560 1440 ≤ 2560 ∧
      scaledH img800x600.width img800x600.height 2560 1440 ≤ 1440) :=
  ⟨⟨by decide, by decide⟩,
    scaled_region_uniform_and_fits img800x600 2560 1440 (by decide) (by decide)⟩

/-! ### Claim C1 -/

/-- C1 counterexample: a 2560×1439 source image scales by the factor
`min(2560/2560, 1440/1439) = 1` to 2560×1439; the height gap is 1, so the
height padding is `⌊1/2⌋ = 0` and the written frame is 2560×1439 — not
2560×1440.  The resize/pad step does not enforce exact 2560×1440 dimensions
for every input. -/
theorem frame_dims_counterexample :
    (resize_image interp0 img2560x1439 output_width output_height).width = 2560 ∧
    (resize_image interp0 img2560x1439 output_width output_height).height = 1439 ∧
    ¬ ((resize_image interp0 img2560x1439 output_width output_height).height = 1440) := by
  have h := scaled_eq_left 2560 1439 2560 1440 (by decide) (by decide) (by decide)
  have hW : scaledW img2560x1439.width img2560x1439.height output_width output_height = 2560 := by
    rw [show img2560x1439.width = 2560 from rfl, show img2560x1439.height = 1439 from rfl,
      show output_width = 2560 from rfl, show output_height = 1440 from rfl, h.1]
  have hH : scaledH img2560x1439.width img2560x1439.height output_width output_height = 1439 := by
    rw [show img2560x1439.width = 2560 from rfl, show img2560x1439.height = 1439 from rfl,
      show output_width = 2560 from rfl, show output_height = 1440 from rfl, h.2]
  have hrw := resize_width interp0 img2560x1439 output_width output_height
  have hrh := resize_height interp0 img2560x1439 output_width output_height
  rw [hrw, hrh]
  unfold padding_width padding_height
  rw [hW, hH]
  exact ⟨by decide, by decide, by decide⟩

/-- C1 amended: the resize/pad step bounds every written frame's dimensions
to within one pixel below 2560×1440 on each axis; a dimension equals the
target exactly when the gap `target − scaled` is even on that axis, and is
one pixel short when the gap is odd — so frames are not guaranteed to be
exactly (or identically) 2560×1440. -/
theorem frame_dims_within_one (interp : Interp) (image : Img)
    (hw : 1 ≤ image.width) (hh : 1 ≤ image.height) :
    2559 ≤ (resize_image interp image output_width output_height).width ∧
    (resize_image interp image output_width output_height).width ≤ 2560 ∧
    1439 ≤ (resize_image interp image output_width output_height).height ∧
    (resize_image interp image output_width output_height).height ≤ 1440 ∧
    (Even (2560 - scaledW image.width image.height output_width output_height) →
      (resize_image interp image output_width output_height).width = 2560) ∧
    (¬ Even (2560 - scaledW image.width image.height output_width output_height) →
      (resize_image interp image output_width output_height).width = 2559) ∧
    (Even (1440 - scaledH image.width image.height output_width output_height) →
      (resize_image interp image output_width output_height).height = 1440) ∧
    (¬ Even (1440 - scaledH image.width image.height output_width output_height) →
      (resize_image interp image output_width output_height).height = 1439) := by
  have hwle := scaledW_le image.width image.height output_width output_height hw
  have hhle := scaledH_le image.width image.height output_width output_height hh
  have hrw := resize_width interp image output_width output_height
  have hrh := resize_height interp image output_width output_height
  rw [hrw, hrh]
  unfold padding_width padding_height
  rw [show output_width = 2560 from rfl, show output_height = 1440 from rfl] at *
  refine ⟨by omega, by omega, by omega, by omega, ?_, ?_, ?_, ?_⟩ <;>
    · rw [Nat.even_iff]
      omega

/-- Witness for the amended C1 at the 800×600 image. -/
theorem frame_dims_within_one_witness :
    (1 ≤ img800x600.width ∧ 1 ≤ img800x600.height) ∧
    (2559 ≤ (resize_image interp0 img800x600 output_width output_height).width ∧
      (resize_image interp0 img800x600 output_width output_height).width ≤ 2560 ∧
      1439 ≤ (resize_image interp0 img800x600 output_width output_height).height ∧
      (resize_image interp0 img800x600 output_width output_height).height ≤ 1440 ∧
      (Even (2560 - scaledW img800x600.width img800x600.height output_width output_height) →
        (resize_image interp0 img800x600 output_width output_height).width = 2560) ∧
      (¬ Even (2560 - scaledW img800x600.width img800x600.height output_width output_height) →
        (resize_image interp0 img800x600 output_width output_height).width = 2559) ∧
      (Even (1440 - scaledH img800x600.width img800x600.height output_width output_height) →
        (resize_image interp0 img800x600 output_width output_height).height = 1440) ∧
      (¬ Even (1440 - scaledH img800x600.width img800x600.height output_width output_height) →
        (resize_image interp0 img800x600 output_width output_height).height = 1439)) :=
  ⟨⟨by decide, by decide⟩, frame_dims_within_one interp0 img800x600 (by decide) (by decide)⟩

/-! ### Claim C8 -/

/-- C8: the padding added around the scaled image is symmetric — the same
`padding_width` on the left and on the right, the same `padding_height` on
the top and on the bottom — and every pixel of the padded frame outside the
central scaled region has the constant black value 0. -/
theorem padding_symmetric_and_black (interp : Interp) (image : Img) (tw th : ℕ) :
    (resize_image interp image tw th).width =
      padding_width image.width image.height tw th +
        scaledW image.width image.height tw th +
        padding_width image.width image.height tw th ∧
    (resize_image interp image tw th).height =
      padding_height image.width image.height tw th +
        scaledH image.width image.height tw th +
        padding_height image.width image.height tw th ∧
    ∀ x y,
      (x < padding_width image.width image.height tw th ∨
        padding_width image.width image.height tw th +
          scaledW image.width image.height tw th ≤ x ∨
        y < padding_height image.width image.height tw th ∨
        padding_height image.width image.height tw th +
          scaledH image.width image.height tw th ≤ y) →
      (resize_image interp image tw th).pixel x y = 0 := by
  refine ⟨rfl, rfl, ?_⟩
  intro x y hxy
  show (if padding_width image.width image.height tw th ≤ x ∧
      x < padding_width image.width image.height tw th +
        scaledW image.width image.height tw th ∧
      padding_height image.width image.height tw th ≤ y ∧
      y < padding_height image.width image.height tw th +
        scaledH image.width image.height tw th then _ else 0) = 0
  rw [if_neg]
  omega

/-! ### Claim C4 -/

/-- The extension test of line 80, as the spec phrases it: the lowercased
name ends with one of the four image suffixes. -/
lemma isImageFile_iff (file : String) :
    isImageFile file = true ↔
      ∃ suf ∈ [".png", ".jpg", ".jpeg", ".gif"],
        str_endswith (str_lower file) suf = true := by
  simp only [isImageFile, Bool.or_eq_true, List.mem_cons, List.mem_singleton,
    List.not_mem_nil, or_false, exists_eq_or_imp, exists_eq_left]
  tauto

/-- C4: discovery returns exactly the files yielded anywhere by the recursive
traversal whose lowercased name ends with `.png`, `.jpg`, `.jpeg` or `.gif`,
as full paths `root/file`; nothing else is returned, and membership depends
only on the names the traversal yields — no file content or decodability is
consulted (`get_image_files` takes no decoder at all). -/
theorem discovery_exactly_extension_filtered (fs : FileSystem) (path f : String) :
    f ∈ get_image_files fs path ↔
      ∃ root files file, (root, files) ∈ os_walk fs path ∧ file ∈ files ∧
        (∃ suf ∈ [".png", ".jpg", ".jpeg", ".gif"],
          str_endswith (str_lower file) suf = true) ∧
        f = pathJoin root file := by
  constructor
  · intro hf
    rcases List.mem_flatMap.1 hf with ⟨rf, hrf, hmem⟩
    rcases List.mem_map.1 hmem with ⟨file, hfil, rfl⟩
    rcases List.mem_filter.1 hfil with ⟨hfile, himg⟩
    exact ⟨rf.1, rf.2, file, by simpa using hrf, hfile, (isImageFile_iff file).1 himg, rfl⟩
  · rintro ⟨root, files, file, hrf, hfile, himg, rfl⟩
    refine List.mem_flatMap.2 ⟨(root, files), hrf, ?_⟩
    exact List.mem_map.2 ⟨file, List.mem_filter.2 ⟨hfile, (isImageFile_iff file).2 himg⟩, rfl⟩

/-! ### Claim C3 -/

/-- When every file of the list decodes, the loop writes exactly one frame
per file, in order, and reports no error. -/
lemma writeFrames_ok (interp : Interp) (decode : Decoder) (dec : String → Img) :
    ∀ files : List String, (∀ f ∈ files, decode f = some (dec f)) →
      writeFrames interp decode files =
        (files.map fun f =>
          Event.writeFrame (resize_image interp (dec f) output_width output_height), none)
  | [], _ => rfl
  | f :: rest, h => by
    have hf : decode f = some (dec f) := h f (List.mem_cons_self f rest)
    have ih := writeFrames_ok interp decode dec rest fun g hg => h g (List.mem_cons_of_mem f hg)
    simp [writeFrames, hf, ih]

/-- A list of written frames is untouched by filtering for writes. -/
lemma filter_isWrite_map (l : List String) (F : String → Img) :
    ((l.map fun f => Event.writeFrame (F f)).filter Event.isWrite) =
      l.map fun f => Event.writeFrame (F f) := by
  induction l with
  | nil => rfl
  | cons a l ih => simp [Event.isWrite, ih]

/-- A list of written frames holds no release. -/
lemma filter_isRelease_map (l : List String) (F : String → Img) :
    ((l.map fun f => Event.writeFrame (F f)).filter Event.isRelease) = [] := by
  induction l with
  | nil => rfl
  | cons a l ih => simp [Event.isRelease, ih]

/-- The last element of `a :: (l ++ [r])` is `r`. -/
lemma getLast?_cons_concat {α : Type} (a r : α) (l : List α) :
    (a :: (l ++ [r])).getLast? = some r := by
  have h : a :: (l ++ [r]) = (a :: l) ++ [r] := rfl
  rw [h, List.getLast?_concat]

/-- A release event is not among written frames. -/
lemma release_not_mem_map (l : List String) (F : String → Img) :
    Event.release ∉ l.map fun f => Event.writeFrame (F f) := by
  intro h
  rcases List.mem_map.1 h with ⟨g, _, hg⟩
  exact Event.noConfusion hg

/-- C3: when discovery finds at least one file and every discovered file
decodes, the run completes without error and its sink trace is exactly: one
open, then one written frame per discovered file in discovery order (so the
frame count equals the number of discovered files), then exactly one
release, after the last frame. -/
theorem run_trace_on_success (interp : Interp) (decode : Decoder) (fs : FileSystem)
    (file_name : Option String) (path : String) (destination_folder : Option String)
    (dec : String → Img)
    (hne : get_image_files fs path ≠ [])
    (hdec : ∀ f ∈ get_image_files fs path, decode f = some (dec f)) :
    (create_video_from_images interp decode fs file_name path destination_folder).error =
      none ∧
    (create_video_from_images interp decode fs file_name path destination_folder).events =
      Event.openWriter (output_path_of file_name path destination_folder) "mp4v" output_fps
          (output_width, output_height) ::
        ((get_image_files fs path).map fun f =>
          Event.writeFrame (resize_image interp (dec f) output_width output_height)) ++
        [Event.release] ∧
    (((create_video_from_images interp decode fs file_name path
        destination_folder).events.filter Event.isWrite).length =
      (get_image_files fs path).length) ∧
    (((create_video_from_images interp decode fs file_name path
        destination_folder).events.filter Event.isRelease).length = 1) ∧
    (create_video_from_images interp decode fs file_name path
        destination_folder).events.getLast? = some Event.release := by
  obtain ⟨f0, rest, hfl⟩ : ∃ f0 rest, get_image_files fs path = f0 :: rest := by
    cases hx : get_image_files fs path with
    | nil => exact absurd hx hne
    | cons a l => exact ⟨a, l, rfl⟩
  have hwf := writeFrames_ok interp decode dec (get_image_files fs path) hdec
  have hdec0 : decode f0 = some (dec f0) := hdec f0 (by rw [hfl]; exact List.mem_cons_self _ _)
  rw [hfl] at hwf ⊢
  have hrun : create_video_from_images interp decode fs file_name path destination_folder =
      ⟨Event.openWriter (output_path_of file_name path destination_folder) "mp4v" output_fps
          (output_width, output_height) ::
        ((f0 :: rest).map fun f =>
          Event.writeFrame (resize_image interp (dec f) output_width output_height)) ++
        [Event.release], none⟩ := by
    simp [create_video_from_images, hfl, hdec0, hwf]
  rw [hrun]
  refine ⟨rfl, rfl, ?_, ?_, ?_⟩
  · dsimp only
    simp [List.filter_append, List.filter_cons, Event.isWrite, Event.isRelease,
      filter_isWrite_map]
  · dsimp only
    simp [List.filter_append, List.filter_cons, Event.isWrite, Event.isRelease,
      filter_isRelease_map]
  · exact getLast?_cons_concat _ _ _

/-- Witness for C3: one discovered file, everything decodes, and the trace is
open · one frame · release. -/
theorem run_trace_on_success_witness :
    (get_image_files fsDemo "/tmp/in" ≠ [] ∧
      ∀ f ∈ get_image_files fsDemo "/tmp/in", decodeOk f = some (img800x600)) ∧
    ((create_video_from_images interp0 decodeOk fsDemo none "/tmp/in" none).error = none ∧
      (create_video_from_images interp0 decodeOk fsDemo none "/tmp/in" none).events =
        Event.openWriter (output_path_of none "/tmp/in" none) "mp4v" output_fps
            (output_width, output_height) ::
          ((get_image_files fsDemo "/tmp/in").map fun _f =>
            Event.writeFrame (resize_image interp0 img800x600 output_width output_height)) ++
          [Event.release] ∧
      (((create_video_from_images interp0 decodeOk fsDemo none "/tmp/in"
          none).events.filter Event.isWrite).length =
        (get_image_files fsDemo "/tmp/in").length) ∧
      (((create_video_from_images interp0 decodeOk fsDemo none "/tmp/in"
          none).events.filter Event.isRelease).length = 1) ∧
      (create_video_from_images interp0 decodeOk fsDemo none "/tmp/in"
          none).events.getLast? = some Event.release) :=
  ⟨⟨by decide, fun f _ => rfl⟩,
    run_trace_on_success interp0 decodeOk fsDemo none "/tmp/in" none (fun _ => img800x600)
      (by decide) (fun f _ => rfl)⟩

/-! ### Claim C9 -/

/-- When the files before `bad` decode and `bad` does not, the loop writes
exactly the frames of the prefix and stops with the decode failure. -/
lemma writeFrames_abort (interp : Interp) (decode : Decoder) (dec : String → Img)
    (bad : String) (post : List String) (hbad : decode bad = none) :
    ∀ pre : List String, (∀ f ∈ pre, decode f = some (dec f)) →
      writeFrames interp decode (pre ++ bad :: post) =
        (pre.map fun f =>
          Event.writeFrame (resize_image interp (dec f) output_width output_height),
          some (RunError.decodeError bad))
  | [], _ => by simp [writeFrames, hbad]
  | f :: rest, h => by
    have hf : decode f = some (dec f) := h f (List.mem_cons_self f rest)
    have ih := writeFrames_abort interp decode dec bad post hbad rest
      fun g hg => h g (List.mem_cons_of_mem f hg)
    simp [writeFrames, hf, ih]

/-- C9: if any discovered image fails to decode (the files before it decode
fine), the run ends with that decode failure: frames were written only for
the files before the failing one (no skip-and-continue, no frame for any
later file), and the sink is never released. -/
theorem run_aborts_on_decode_failure (interp : Interp) (decode : Decoder) (fs : FileSystem)
    (file_name : Option String) (path : String) (destination_folder : Option String)
    (dec : String → Img) (pre : List String) (bad : String) (post : List String)
    (hsplit : get_image_files fs path = pre ++ bad :: post)
    (hpre : ∀ f ∈ pre, decode f = some (dec f))
    (hbad : decode bad = none) :
    (create_video_from_images interp decode fs file_name path destination_folder).error =
      some (RunError.decodeError bad) ∧
    ((create_video_from_images interp decode fs file_name path
        destination_folder).events.filter Event.isWrite) =
      (pre.map fun f =>
        Event.writeFrame (resize_image interp (dec f) output_width output_height)) ∧
    Event.release ∉
      (create_video_from_images interp decode fs file_name path destination_folder).events := by
  cases pre with
  | nil =>
    rw [List.nil_append] at hsplit
    refine ⟨?_, ?_, ?_⟩ <;> simp [create_video_from_images, hsplit, hbad]
  | cons p0 pre' =>
    have hp0 : decode p0 = some (dec p0) := hpre p0 (List.mem_cons_self _ _)
    have hwf := writeFrames_abort interp decode dec bad post hbad (p0 :: pre') hpre
    rw [List.cons_append] at hsplit hwf
    have hrun : create_video_from_images interp decode fs file_name path destination_folder =
        ⟨Event.openWriter (output_path_of file_name path destination_folder) "mp4v" output_fps
            (output_width, output_height) ::
          ((p0 :: pre').map fun f =>
            Event.writeFrame (resize_image interp (dec f) output_width output_height)),
          some (RunError.decodeError bad)⟩ := by
      simp [create_video_from_images, hsplit, hp0, hwf]
    rw [hrun]
    refine ⟨rfl, ?_, ?_⟩
    · dsimp only
      simp [List.filter_cons, Event.isWrite, filter_isWrite_map]
    · dsimp only
      simp [List.mem_cons, release_not_mem_map]

/-- Witness for C9: two discovered files, the first decodes and the second
does not; the run errors out with one written frame and no release. -/
theorem run_aborts_on_decode_failure_witness :
    (get_image_files fsPics "/pics" = ["/pics/a.png"] ++ "/pics/sub/c.JPG" :: [] ∧
      (∀ f ∈ ["/pics/a.png"], decodeFirstOnly f = some img800x600) ∧
      decodeFirstOnly "/pics/sub/c.JPG" = none) ∧
    ((create_video_from_images interp0 decodeFirstOnly fsPics none "/pics" none).error =
      some (RunError.decodeError "/pics/sub/c.JPG") ∧
    ((create_video_from_images interp0 decodeFirstOnly fsPics none "/pics"
        none).events.filter Event.isWrite) =
      (["/pics/a.png"].map fun _f =>
        Event.writeFrame (resize_image interp0 img800x600 output_width output_height)) ∧
    Event.release ∉
      (create_video_from_images interp0 decodeFirstOnly fsPics none "/pics" none).events) :=
  ⟨⟨by decide, fun f hf => by
      rw [List.mem_singleton.1 hf]
      rfl, rfl⟩,
    run_aborts_on_decode_failure interp0 decodeFirstOnly fsPics none "/pics" none
      (fun _ => img800x600) ["/pics/a.png"] "/pics/sub/c.JPG" [] (by decide)
      (fun f hf => by
        rw [List.mem_singleton.1 hf]
        rfl)
      rfl⟩

/-! ### Claim C5 -/

/-- C5: when discovery finds zero files, the unconditional `image_files[0]`
read raises `IndexError` before the video sink is opened: the run errors and
its event trace is empty — in particular no open happened, so no output file
was created. -/
theorem run_fails_on_empty_discovery (interp : Interp) (decode : Decoder) (fs : FileSystem)
    (file_name : Option String) (path : String) (destination_folder : Option String)
    (h : get_image_files fs path = []) :
    (create_video_from_images interp decode fs file_name path destination_folder).error =
      some RunError.indexError ∧
    (create_video_from_images interp decode fs file_name path destination_folder).events =
      [] := by
  constructor <;> simp [create_video_from_images, h]

/-- Witness for C5: a folder holding only `readme.txt`. -/
theorem run_fails_on_empty_discovery_witness :
    get_image_files fsDocs "/docs" = [] ∧
    ((create_video_from_images interp0 decodeOk fsDocs none "/docs" none).error =
      some RunError.indexError ∧
    (create_video_from_images interp0 decodeOk fsDocs none "/docs" none).events = []) :=
  ⟨by decide,
    run_fails_on_empty_discovery interp0 decodeOk fsDocs none "/docs" none (by decide)⟩

/-! ### Claim C10 -/

/-- C10: for a non-existent (or unreadable) input path, `os.walk` yields
nothing, so discovery returns the empty list without raising; the run then
fails with the same `IndexError` at the first-entry access as for an empty
folder, with no sink event — there is no up-front path validation. -/
theorem missing_path_same_as_empty (interp : Interp) (decode : Decoder) (fs : FileSystem)
    (file_name : Option String) (path : String) (destination_folder : Option String)
    (h : fs path = none) :
    get_image_files fs path = [] ∧
    (create_video_from_images interp decode fs file_name path destination_folder).error =
      some RunError.indexError ∧
    (create_video_from_images interp decode fs file_name path destination_folder).events =
      [] := by
  have hempty : get_image_files fs path = [] := by
    simp [get_image_files, os_walk, h]
  exact ⟨hempty, by simp [create_video_from_images, hempty],
    by simp [create_video_from_images, hempty]⟩

/-- Witness for C10: a filesystem where the input path does not exist. -/
theorem missing_path_same_as_empty_witness :
    fsMissing "/nowhere" = none ∧
    (get_image_files fsMissing "/nowhere" = [] ∧
    (create_video_from_images interp0 decodeOk fsMissing none "/nowhere" none).error =
      some RunError.indexError ∧
    (create_video_from_images interp0 decodeOk fsMissing none "/nowhere" none).events = []) :=
  ⟨rfl, missing_path_same_as_empty interp0 decodeOk fsMissing none "/nowhere" none rfl⟩

/-! ### Claim C6 -/

/-- C6: as soon as the run opens its sink (discovery found a first file and it
decoded), the sink is opened at
`join(destination_folder, file_name + ".mp4")` — with `file_name` defaulting
to `"none"` and `destination_folder` defaulting to `dirname(path)` when not
supplied — with codec tag `"mp4v"`, 60 fps and size 2560×1440. -/
theorem output_path_and_params (interp : Interp) (decode : Decoder) (fs : FileSystem)
    (file_name : Option String) (path : String) (destination_folder : Option String)
    (first : String) (rest : List String) (img : Img)
    (hdisc : get_image_files fs path = first :: rest)
    (hdec : decode first = some img) :
    (create_video_from_images interp decode fs file_name path destination_folder).events.head? =
      some (Event.openWriter
        (pathJoin (destination_folder.getD (dirname path)) (file_name.getD "none" ++ ".mp4"))
        "mp4v" 60 (2560, 1440)) := by
  simp [create_video_from_images, hdisc, hdec, output_path_of, output_width, output_height,
    output_fps]

/-- Witness for C6, the spec's scenario: `name="demo"`,
`destination="/tmp/out"`, and the sink path evaluates to
`/tmp/out/demo.mp4`. -/
theorem output_path_and_params_witness :
    (get_image_files fsDemo "/tmp/in" = ["/tmp/in/a.png"] ∧
      decodeOk "/tmp/in/a.png" = some img800x600) ∧
    pathJoin ((some "/tmp/out").getD (dirname "/tmp/in")) ((some "demo").getD "none" ++ ".mp4") =
      "/tmp/out/demo.mp4" ∧
    (create_video_from_images interp0 decodeOk fsDemo (some "demo") "/tmp/in"
        (some "/tmp/out")).events.head? =
      some (Event.openWriter
        (pathJoin ((some "/tmp/out").getD (dirname "/tmp/in"))
          ((some "demo").getD "none" ++ ".mp4"))
        "mp4v" 60 (2560, 1440)) :=
  ⟨⟨by decide, rfl⟩, by decide,
    output_path_and_params interp0 decodeOk fsDemo (some "demo") "/tmp/in" (some "/tmp/out")
      "/tmp/in/a.png" [] img800x600 (by decide) rfl⟩

end ConvertImgToMP4
